import Mathlib

/-!
Verification of the Cosmic-Bounce simulation core.

The definitions below are a shallow embedding of the repository's source:
the 2D vector utilities (utils/math), the game data model (types), and the
physics/interaction logic of the GameCanvas update loop and pointer
handlers.  Numbers are modelled as real numbers; `Math.sqrt` is
`Real.sqrt`, `Math.pow` is `Real.rpow`, `Math.atan2 y x` is the argument
of the complex number `x + i y`.  Rendering, audio and React state wiring
are outside the modelled core; fields of `Ball` that only feed rendering
(the colour tag) are not carried.
-/

namespace CosmicBounce

noncomputable section

attribute [local instance] Classical.propDecidable

/-- 2D vector, `{x, y}` from types. -/
@[ext]
structure Vector2 where
  x : ℝ
  y : ℝ

/-- add from utils/math. -/
def add (v1 v2 : Vector2) : Vector2 := ⟨v1.x + v2.x, v1.y + v2.y⟩

/-- sub from utils/math. -/
def sub (v1 v2 : Vector2) : Vector2 := ⟨v1.x - v2.x, v1.y - v2.y⟩

/-- mult from utils/math. -/
def mult (v : Vector2) (s : ℝ) : Vector2 := ⟨v.x * s, v.y * s⟩

/-- dot from utils/math. -/
def dot (v1 v2 : Vector2) : ℝ := v1.x * v2.x + v1.y * v2.y

/-- mag from utils/math. -/
def mag (v : Vector2) : ℝ := Real.sqrt (v.x * v.x + v.y * v.y)

/-- distSq from utils/math. -/
def distSq (v1 v2 : Vector2) : ℝ :=
  (v1.x - v2.x) * (v1.x - v2.x) + (v1.y - v2.y) * (v1.y - v2.y)

/-- normalize from utils/math: zero-length vectors map to the zero vector. -/
def normalize (v : Vector2) : Vector2 :=
  if mag v = 0 then ⟨0, 0⟩ else ⟨v.x / mag v, v.y / mag v⟩

/-- dist from utils/math. -/
def dist (v1 v2 : Vector2) : ℝ := mag (sub v1 v2)

/-- Result record of distToSegment from utils/math. -/
structure SegResult where
  d : ℝ
  closest : Vector2
  normal : Vector2

/-- distToSegment from utils/math: distance from point `p` to segment `a`-`b`,
with the closest point and a perpendicular normal. -/
def distToSegment (p a b : Vector2) : SegResult :=
  let ab := sub b a
  let ap := sub p a
  let abLenSq := dot ab ab
  if abLenSq = 0 then ⟨dist p a, a, ⟨0, -1⟩⟩
  else
    let t := max 0 (min 1 (dot ap ab / abLenSq))
    let closest := add a (mult ab t)
    let distance := dist p closest
    let n0 := normalize (sub p closest)
    let normal := if n0.x = 0 ∧ n0.y = 0 then normalize ⟨-ab.y, ab.x⟩ else n0
    ⟨distance, closest, normal⟩

/- Basic facts about the vector operations. -/

theorem mag_nonneg (v : Vector2) : 0 ≤ mag v := Real.sqrt_nonneg _

theorem mag_eq_zero_iff (v : Vector2) : mag v = 0 ↔ v = ⟨0, 0⟩ := by
  unfold mag
  rw [Real.sqrt_eq_zero (by nlinarith [mul_self_nonneg v.x, mul_self_nonneg v.y])]
  constructor
  · intro h
    have hx : v.x = 0 := by nlinarith [mul_self_nonneg v.x, mul_self_nonneg v.y]
    have hy : v.y = 0 := by nlinarith [mul_self_nonneg v.x, mul_self_nonneg v.y]
    ext
    · exact hx
    · exact hy
  · rintro rfl
    norm_num

theorem mag_mult (v : Vector2) (c : ℝ) : mag (mult v c) = |c| * mag v := by
  unfold mag mult
  have h1 : v.x * c * (v.x * c) + v.y * c * (v.y * c)
      = (c * c) * (v.x * v.x + v.y * v.y) := by ring
  rw [h1, Real.sqrt_mul (mul_self_nonneg c), Real.sqrt_mul_self_eq_abs]

theorem normalize_eq_mult (v : Vector2) (h : mag v ≠ 0) :
    normalize v = mult v (1 / mag v) := by
  unfold normalize mult
  rw [if_neg h]
  ext <;> simp <;> ring

theorem normalize_ne_zero (v : Vector2) (h : v ≠ ⟨0, 0⟩) :
    normalize v ≠ (⟨0, 0⟩ : Vector2) := by
  have hm : mag v ≠ 0 := fun hz => h ((mag_eq_zero_iff v).mp hz)
  unfold normalize
  rw [if_neg hm]
  intro hcon
  apply h
  have hx : v.x / mag v = 0 := congrArg Vector2.x hcon
  have hy : v.y / mag v = 0 := congrArg Vector2.y hcon
  rw [div_eq_zero_iff] at hx hy
  ext
  · rcases hx with h' | h' <;> [exact h'; exact absurd h' hm]
  · rcases hy with h' | h' <;> [exact h'; exact absurd h' hm]

theorem dot_self_eq_zero_iff (v : Vector2) : dot v v = 0 ↔ v = ⟨0, 0⟩ := by
  unfold dot
  constructor
  · intro h
    have hx : v.x = 0 := by nlinarith [mul_self_nonneg v.x, mul_self_nonneg v.y]
    have hy : v.y = 0 := by nlinarith [mul_self_nonneg v.x, mul_self_nonneg v.y]
    ext
    · exact hx
    · exact hy
  · rintro rfl
    norm_num

/-- Simulated body from types (the colour tag, render-only, is not carried). -/
structure Ball where
  id : ℕ
  pos : Vector2
  vel : Vector2
  radius : ℝ
  trail : List Vector2
  isPinned : Bool

/-- Helper building a ball with a fresh id and empty trail. -/
def mkBall (pos vel : Vector2) (radius : ℝ) (pinned : Bool) : Ball :=
  ⟨0, pos, vel, radius, [], pinned⟩

/-- SUB_STEPS constant of GameCanvas. -/
def SUB_STEPS : ℕ := 10

/-- Per-sub-step damping factor, `Math.pow(0.9995, 1 / SUB_STEPS)`. -/
def DAMP : ℝ := (0.9995 : ℝ) ^ ((1 : ℝ) / (SUB_STEPS : ℝ))

/-- Integration phase of one sub-step for one ball (GameCanvas update,
"Move Ball" block): pinned balls are skipped entirely; otherwise apply
gravity, damping, the anti-tunneling speed clamp, and the position update. -/
def integrateBall (gravity : ℝ) (b : Ball) : Ball :=
  if b.isPinned = true then b
  else
    let v1 : Vector2 := ⟨b.vel.x, b.vel.y + gravity / (SUB_STEPS : ℝ)⟩
    let v2 := mult v1 DAMP
    let currentSpeed := mag v2
    let maxStepSpeed := b.radius * 0.8
    let maxFrameSpeed := maxStepSpeed * (SUB_STEPS : ℝ)
    let v3 := if currentSpeed > maxFrameSpeed then mult v2 (maxFrameSpeed / currentSpeed) else v2
    { b with vel := v3, pos := add b.pos (mult v3 (1 / (SUB_STEPS : ℝ))) }

/-- Result of resolving one ball pair: the updated pair and the number of
times the collision counter was incremented. -/
structure PairResult where
  ball : Ball
  other : Ball
  countDelta : ℕ

/-- Ball-ball collision resolution for one ordered pair (GameCanvas update,
"Ball-Ball Collision" block): `ball` is the ball being processed (never
pinned at this point, since pinned balls are skipped), `other` the partner.
A pinned partner has infinite mass: full push-out and reflection of `ball`
only.  An unpinned partner shares a 50/50 positional split and an elastic
impulse, followed by 0.99 damping on both. -/
def resolvePair (elasticity : ℝ) (ball other : Ball) : PairResult :=
  let dSq := distSq ball.pos other.pos
  let minDist := ball.radius + other.radius
  if dSq < minDist * minDist then
    let distance := Real.sqrt dSq
    let normal := mult (sub ball.pos other.pos) (1 / distance)
    let overlap := minDist - distance
    if other.isPinned = true then
      let pos1 := add ball.pos (mult normal overlap)
      let vDotN := dot ball.vel normal
      if vDotN < 0 then
        let vel1 := mult (sub ball.vel (mult normal (2 * vDotN))) elasticity
        ⟨{ ball with pos := pos1, vel := vel1 }, other, 1⟩
      else
        ⟨{ ball with pos := pos1 }, other, 0⟩
    else
      let push := mult normal (overlap * 0.5)
      let bpos := add ball.pos push
      let opos := sub other.pos push
      let relVel := sub ball.vel other.vel
      let sepVel := dot relVel normal
      if sepVel < 0 then
        let impulse := mult normal sepVel
        let bvel := mult (sub ball.vel impulse) 0.99
        let ovel := mult (add other.vel impulse) 0.99
        ⟨{ ball with pos := bpos, vel := bvel }, { other with pos := opos, vel := ovel }, 1⟩
      else
        ⟨{ ball with pos := bpos }, { other with pos := opos }, 0⟩
  else
    ⟨ball, other, 0⟩

/-- Guard on the ball-ball collision pass (GameCanvas update, line guarding
the pair loop): it runs when ball collisions are enabled globally or some
ball is pinned, and only on even sub-steps when the sub-step count is
high. -/
def pairLoopRuns (enable : Bool) (balls : List Ball) (step : ℕ) : Prop :=
  (enable = true ∨ ∃ b ∈ balls, b.isPinned = true) ∧ (SUB_STEPS < 4 ∨ step % 2 = 0)

/-- Partner filter inside the pair loop: with global collisions off, only
pinned partners are considered. -/
def partnerConsidered (enable : Bool) (other : Ball) : Prop :=
  ¬(enable = false ∧ other.isPinned = false)

/-- Wall id string `layer-side` used as key of the manual gap set. -/
def wallIdStr (layer side : ℕ) : String :=
  toString layer ++ "-" ++ toString side

/-- Toggle of a wall id in the manual gap set (handlePointerDown, "Check
Wall Click" block): delete when present, add when absent. -/
def toggleGap (gaps : Finset String) (w : String) : Finset String :=
  if w ∈ gaps then gaps.erase w else insert w gaps

/-- Hit test on a ball's velocity handle (handlePointerDown step 1). -/
def velHandleHit (mousePos : Vector2) (b : Ball) : Prop :=
  dist mousePos (add b.pos (mult b.vel 10)) < 10

/-- Hit test on a ball's body (handlePointerDown step 2). -/
def ballHit (mousePos : Vector2) (b : Ball) : Prop :=
  dist mousePos b.pos < b.radius + 5

/-- Effect of handlePointerDown on the manual gap set: gated on god mode,
pause and the main button; a velocity-handle or ball hit starts a drag and
returns before the wall branch; otherwise the hovered wall, if any, is
toggled. -/
def pointerDownGaps (godMode paused : Bool) (button : ℕ) (mousePos : Vector2)
    (balls : List Ball) (hovered : Option String) (gaps : Finset String) : Finset String :=
  if godMode = false ∨ paused = false then gaps
  else if button ≠ 0 then gaps
  else if ∃ b ∈ balls, velHandleHit mousePos b then gaps
  else if ∃ b ∈ balls, ballHit mousePos b then gaps
  else
    match hovered with
    | none => gaps
    | some w => toggleGap gaps w

/-- Pin toggle applied to one hit ball (togglePin body): flipping to pinned
zeroes the velocity; flipping to unpinned changes only the flag. -/
def togglePinBall (b : Ball) : Ball :=
  if b.isPinned = true then { b with isPinned := false }
  else { b with isPinned := true, vel := ⟨0, 0⟩ }

/-- togglePin over the ball list: the first ball within `radius + 15` of the
press point is toggled, the rest are untouched. -/
def togglePin (pos : Vector2) : List Ball → List Ball
  | [] => []
  | b :: rest =>
      if dist pos b.pos < b.radius + 15 then togglePinBall b :: rest
      else b :: togglePin pos rest

/-- Kind of drag in progress (DragState of GameCanvas). -/
inductive DragKind where
  | ballDrag (offset : Vector2)
  | velocityDrag

/-- Effect of handlePointerMove's drag logic on the dragged ball: pinned
balls are left untouched; a body drag moves the ball (clearing its trail),
a velocity drag rescales the pointer offset by 0.1 into a new velocity. -/
def applyDrag (mousePos : Vector2) (k : DragKind) (b : Ball) : Ball :=
  if b.isPinned = true then b
  else
    match k with
    | .ballDrag offset => { b with pos := add mousePos offset, trail := [] }
    | .velocityDrag => { b with vel := mult (sub mousePos b.pos) 0.1 }

/-- Truncation toward zero, as used by the JavaScript `%` operator. -/
def jsTrunc (x : ℝ) : ℝ :=
  if 0 ≤ x then ((Int.floor x : ℤ) : ℝ) else ((Int.ceil x : ℤ) : ℝ)

/-- JavaScript remainder `a % b`: the result carries the sign of `a`. -/
def jsMod (a b : ℝ) : ℝ := a - b * jsTrunc (a / b)

/-- `Math.atan2 y x` as the argument of the complex number `x + i y`. -/
def atan2 (y x : ℝ) : ℝ := Complex.arg ⟨x, y⟩

/-- Gap test of the circular wall (GameCanvas update, circle logic): the
ball sits in the rotating auto-gap arc, or the ring was manually removed. -/
def circleIsInGap (gapCount sides : ℕ) (ballPos center : Vector2) (rot : ℝ)
    (gaps : Finset String) (wallId : String) : Prop :=
  (0 < gapCount ∧
    (let angle := atan2 (ballPos.y - center.y) (ballPos.x - center.x)
     let rel0 := jsMod (angle - rot) (Real.pi * 2)
     let relAngle := if rel0 < 0 then rel0 + Real.pi * 2 else rel0
     let drawAngle := (((sides : ℝ) - (gapCount : ℝ)) / (sides : ℝ)) * Real.pi * 2
     relAngle > drawAngle))
  ∨ wallId ∈ gaps

/-- Radial wall normal of the circular wall, oriented toward the ball's
side of the ring. -/
def circleWallNormal (center : Vector2) (layerR : ℝ) (b : Ball) : Vector2 :=
  let distToCenter := mag (sub b.pos center)
  if distToCenter > layerR then mult (normalize (sub center b.pos)) (-1)
  else normalize (sub center b.pos)

/-- Result of one ball-wall resolution: updated ball, updated manual gap
set, and collision-counter increment. -/
structure WallResult where
  ball : Ball
  gaps : Finset String
  countDelta : ℕ

/-- Ball versus one circular wall layer (GameCanvas update, circle logic):
gap test, proximity test, approach test, then reflection, elasticity,
tangential spin impulse, push-out, destructible gap insertion, and the
wall-collision counting policy. -/
def resolveCircleWall (enable record destructible : Bool) (elasticity rotSpeed : ℝ)
    (gapCount sides : ℕ) (center : Vector2) (layer : ℕ) (layerR rot : ℝ)
    (gaps : Finset String) (b : Ball) : WallResult :=
  let wallId := wallIdStr layer 0
  if circleIsInGap gapCount sides b.pos center rot gaps wallId then ⟨b, gaps, 0⟩
  else
    let distToCenter := mag (sub b.pos center)
    let distToEdge := |distToCenter - layerR|
    if distToEdge < b.radius then
      let wallNormal := circleWallNormal center layerR b
      if dot b.vel wallNormal < 0 then
        let vDotN := dot b.vel wallNormal
        let v1 := mult (sub b.vel (mult wallNormal (2 * vDotN))) elasticity
        let tangent : Vector2 := ⟨-wallNormal.y, wallNormal.x⟩
        let v2 := add v1 (mult tangent (rotSpeed * layerR * 0.05))
        let pen := b.radius - distToEdge
        let pos1 := add b.pos (mult wallNormal pen)
        let gaps1 := if destructible = true then insert wallId gaps else gaps
        let delta := if enable = false ∨ record = true then 1 else 0
        ⟨{ b with vel := v2, pos := pos1 }, gaps1, delta⟩
      else ⟨b, gaps, 0⟩
    else ⟨b, gaps, 0⟩

/-- Conditions under which the circular wall resolution actually fires. -/
def circleWallHit (gapCount sides : ℕ) (center : Vector2) (layer : ℕ)
    (layerR rot : ℝ) (gaps : Finset String) (b : Ball) : Prop :=
  ¬ circleIsInGap gapCount sides b.pos center rot gaps (wallIdStr layer 0)
  ∧ |mag (sub b.pos center) - layerR| < b.radius
  ∧ dot b.vel (circleWallNormal center layerR b) < 0

/-- Ball versus one polygon wall segment (GameCanvas update, polygon logic),
given the side's endpoints: gap tests, segment-distance test, approach
test, then reflection, elasticity, tangential spin impulse, push-out,
destructible gap insertion and the counting policy; a receding but deeply
overlapping ball gets a depenetration-only nudge. -/
def resolvePolySide (enable record destructible : Bool) (elasticity rotSpeed : ℝ)
    (gapCount sides : ℕ) (layer i : ℕ) (p1 p2 : Vector2)
    (gaps : Finset String) (b : Ball) : WallResult :=
  let wallId := wallIdStr layer i
  let isAutoGap := (sides : ℤ) - (gapCount : ℤ) ≤ (i : ℤ)
  let isManualGap := wallId ∈ gaps
  if isAutoGap ∨ isManualGap then ⟨b, gaps, 0⟩
  else
    let r := distToSegment b.pos p1 p2
    if r.d < b.radius then
      if dot b.vel r.normal < 0 then
        let vDotN := dot b.vel r.normal
        let v1 := mult (sub b.vel (mult r.normal (2 * vDotN))) elasticity
        let wallTangent := normalize (sub p2 p1)
        let v2 := add v1 (mult wallTangent (rotSpeed * 40))
        let pos1 := add b.pos (mult r.normal (b.radius - r.d))
        let gaps1 := if destructible = true then insert wallId gaps else gaps
        let delta := if enable = false ∨ record = true then 1 else 0
        ⟨{ b with vel := v2, pos := pos1 }, gaps1, delta⟩
      else
        if r.d < b.radius * 0.5 then
          ⟨{ b with pos := add b.pos (mult r.normal (b.radius - r.d)) }, gaps, 0⟩
        else ⟨b, gaps, 0⟩
    else ⟨b, gaps, 0⟩

/-- Conditions under which the polygon wall resolution actually reflects. -/
def polySideHit (gapCount sides : ℕ) (layer i : ℕ) (p1 p2 : Vector2)
    (gaps : Finset String) (b : Ball) : Prop :=
  ¬((sides : ℤ) - (gapCount : ℤ) ≤ (i : ℤ) ∨ wallIdStr layer i ∈ gaps)
  ∧ (distToSegment b.pos p1 p2).d < b.radius
  ∧ dot b.vel (distToSegment b.pos p1 p2).normal < 0

/-- Radius of one boundary layer. -/
def layerRadius (maxRadius spacing : ℝ) (layer : ℕ) : ℝ :=
  maxRadius - (layer : ℝ) * spacing

/-- Vertex `i` of the polygon of a layer at a given rotation. -/
def polyVertex (center : Vector2) (r rot : ℝ) (sides i : ℕ) : Vector2 :=
  ⟨center.x + Real.cos (rot + (i : ℝ) * (Real.pi * 2 / (sides : ℝ))) * r,
   center.y + Real.sin (rot + (i : ℝ) * (Real.pi * 2 / (sides : ℝ))) * r⟩

/-- Ball-ball pass of one sub-step for the processed ball (GameCanvas
update, the pair loop): partners are visited in array order, skipping
unpinned partners while the global flag is off, threading the processed
ball's updated state through the loop and accumulating the counter. -/
def pairPass (enable : Bool) (e : ℝ) (ball : Ball) :
    List Ball → Ball × List Ball × ℕ
  | [] => (ball, [], 0)
  | o :: rest =>
      if enable = false ∧ o.isPinned = false then
        let r := pairPass enable e ball rest
        (r.1, o :: r.2.1, r.2.2)
      else
        let pr := resolvePair e ball o
        let r := pairPass enable e pr.ball rest
        (r.1, pr.other :: r.2.1, r.2.2 + pr.countDelta)

/-- Wall pass of one sub-step for the processed ball (GameCanvas update,
the multi-layer wall loop): layers are visited in order, non-positive
radii skipped; circular mode resolves the single ring of the layer,
polygon mode folds over the sides with the layer's vertices. -/
def wallPass (isCircle enable record destructible : Bool) (e rs : ℝ)
    (gapCount sides layers : ℕ) (center : Vector2) (maxRadius spacing rot : ℝ)
    (b : Ball) (gaps : Finset String) : Ball × Finset String × ℕ :=
  (List.range layers).foldl
    (fun st layer =>
      let lr := layerRadius maxRadius spacing layer
      if lr ≤ 0 then st
      else if isCircle = true then
        let r := resolveCircleWall enable record destructible e rs gapCount sides
          center layer lr rot st.2.1 st.1
        (r.ball, r.gaps, st.2.2 + r.countDelta)
      else
        (List.range sides).foldl
          (fun st2 i =>
            let r := resolvePolySide enable record destructible e rs gapCount sides
              layer i (polyVertex center lr rot sides i)
              (polyVertex center lr rot sides ((i + 1) % sides)) st2.2.1 st2.1
            (r.ball, r.gaps, st2.2.2 + r.countDelta))
          st)
    (b, gaps, 0)

/-- One full sub-step of the per-ball physics body (GameCanvas update,
"Process Balls" loop body): the single outer guard skips pinned balls
entirely, covering integration, the ball-ball pass and the wall pass;
the out-of-bounds respawn block, which sits behind the same guard and
draws random numbers, is outside this model. -/
def processBallSubStep (isCircle enable record destructible : Bool)
    (gravity e rs : ℝ) (gapCount sides layers : ℕ) (center : Vector2)
    (maxRadius spacing rot : ℝ) (step : ℕ) (others : List Ball)
    (gaps : Finset String) (b : Ball) : Ball × List Ball × Finset String × ℕ :=
  if b.isPinned = true then (b, others, gaps, 0)
  else
    let b1 := integrateBall gravity b
    let pr :=
      if pairLoopRuns enable (b :: others) step then pairPass enable e b1 others
      else (b1, others, 0)
    let wr := wallPass isCircle enable record destructible e rs gapCount sides layers
      center maxRadius spacing rot pr.1 gaps
    (wr.1, pr.2.1, wr.2.1, pr.2.2 + wr.2.2)

/-- One iteration of the hovered-wall scan (render loop of GameCanvas):
walls marked `skip` are passed over; otherwise, while god mode and pause
hold and no wall is hovered yet, the first wall within tolerance becomes
the hovered wall. -/
def hoverScanStep {α : Type} (gate : Prop) (skip p : α → Prop) (f : α → String)
    (acc : Option String) (a : α) : Option String :=
  if skip a then acc
  else if gate ∧ acc = none ∧ p a then some (f a) else acc

/-- First wall of the scan order that is not skipped and lies within
tolerance. -/
def firstEligible {α : Type} (skip p : α → Prop) (f : α → String) : List α → Option String
  | [] => none
  | a :: l =>
      if skip a then firstEligible skip p f l
      else if p a then some (f a) else firstEligible skip p f l

/-- Hovered-wall computation for circular mode: one ring per layer, scanned
in layer order, hover gated on god mode and pause, tolerance 20 pixels on
the distance to the ring. -/
def circleHover (godMode paused : Bool) (mouse center : Vector2)
    (maxRadius spacing : ℝ) (layers : ℕ) : Option String :=
  (List.range layers).foldl
    (hoverScanStep (godMode = true ∧ paused = true)
      (fun l => layerRadius maxRadius spacing l ≤ 0)
      (fun l => |mag (sub mouse center) - layerRadius maxRadius spacing l| < 20)
      (fun l => wallIdStr l 0))
    none

/-- Hovered-wall computation for polygon mode: sides scanned in layer-major
then side order, auto-gapped sides and non-positive layers skipped, hover
gated on god mode and pause, tolerance 20 pixels on segment distance. -/
def polyHover (godMode paused : Bool) (mouse center : Vector2)
    (maxRadius spacing rot : ℝ) (layers sides gapCount : ℕ) : Option String :=
  ((List.range layers).flatMap (fun l => (List.range sides).map (fun i => (l, i)))).foldl
    (hoverScanStep (godMode = true ∧ paused = true)
      (fun w => layerRadius maxRadius spacing w.1 ≤ 0 ∨ (sides : ℤ) - (gapCount : ℤ) ≤ (w.2 : ℤ))
      (fun w =>
        (distToSegment mouse
          (polyVertex center (layerRadius maxRadius spacing w.1) rot sides w.2)
          (polyVertex center (layerRadius maxRadius spacing w.1) rot sides ((w.2 + 1) % sides))).d < 20)
      (fun w => wallIdStr w.1 w.2))
    none

/- Shared helper lemmas. -/

theorem toggleGap_twice (gaps : Finset String) (w : String) :
    toggleGap (toggleGap gaps w) w = gaps := by
  unfold toggleGap
  by_cases h : w ∈ gaps
  · rw [if_pos h, if_neg (Finset.not_mem_erase w gaps), Finset.insert_erase h]
  · rw [if_neg h, if_pos (Finset.mem_insert_self w gaps), Finset.erase_insert h]

/-- C5: for every vector of nonzero magnitude, normalize returns a unit
vector that is a positive rescaling of its input (same direction); for the
zero-magnitude vector it returns the fixed fallback value, the zero vector,
totally and without dividing by zero. -/
theorem normalize_total_spec (v : Vector2) :
    (mag v ≠ 0 → mag (normalize v) = 1 ∧ ∃ c : ℝ, 0 < c ∧ normalize v = mult v c)
    ∧ (mag v = 0 → normalize v = ⟨0, 0⟩) := by
  constructor
  · intro h
    have hpos : 0 < mag v := lt_of_le_of_ne (mag_nonneg v) (Ne.symm h)
    have heq := normalize_eq_mult v h
    refine ⟨?_, 1 / mag v, by positivity, heq⟩
    rw [heq, mag_mult, abs_of_pos (by positivity)]
    field_simp
  · intro h
    unfold normalize
    rw [if_pos h]

theorem normalize_total_spec_witness :
    mag (⟨0, 4⟩ : Vector2) ≠ 0 ∧
      (mag (normalize (⟨0, 4⟩ : Vector2)) = 1
        ∧ ∃ c : ℝ, 0 < c ∧ normalize (⟨0, 4⟩ : Vector2) = mult ⟨0, 4⟩ c) := by
  have h : mag (⟨0, 4⟩ : Vector2) ≠ 0 := by
    unfold mag
    positivity
  exact ⟨h, (normalize_total_spec ⟨0, 4⟩).1 h⟩

/-- C3: with god mode and pause active, a press with a wall hovered and no
ball or velocity-handle hit toggles that wall's membership in the manual
gap set (inserting it when absent, erasing it when present), and a second
identical press restores the gap set exactly. -/
theorem wall_double_toggle_restores (godMode paused : Bool) (mousePos : Vector2)
    (balls : List Ball) (w : String) (gaps : Finset String)
    (hg : godMode = true) (hp : paused = true)
    (hnv : ∀ b ∈ balls, ¬ velHandleHit mousePos b)
    (hnb : ∀ b ∈ balls, ¬ ballHit mousePos b) :
    (w ∈ pointerDownGaps godMode paused 0 mousePos balls (some w) gaps ↔ w ∉ gaps)
    ∧ pointerDownGaps godMode paused 0 mousePos balls (some w)
        (pointerDownGaps godMode paused 0 mousePos balls (some w) gaps) = gaps := by
  subst hg hp
  have hred : ∀ g : Finset String,
      pointerDownGaps true true 0 mousePos balls (some w) g = toggleGap g w := by
    intro g
    unfold pointerDownGaps
    rw [if_neg (by simp), if_neg (by simp),
      if_neg (by rintro ⟨b, hb, hhit⟩; exact hnv b hb hhit),
      if_neg (by rintro ⟨b, hb, hhit⟩; exact hnb b hb hhit)]
  rw [hred, hred, toggleGap_twice]
  refine ⟨?_, rfl⟩
  unfold toggleGap
  by_cases h : w ∈ gaps
  · rw [if_pos h]
    simp [Finset.not_mem_erase, h]
  · rw [if_neg h]
    simp [Finset.mem_insert_self, h]

theorem wall_double_toggle_restores_witness :
    pointerDownGaps true true 0 ⟨0, 0⟩ [] (some (wallIdStr 0 1))
      (pointerDownGaps true true 0 ⟨0, 0⟩ [] (some (wallIdStr 0 1)) ∅) = ∅ :=
  (wall_double_toggle_restores true true ⟨0, 0⟩ [] (wallIdStr 0 1) ∅ rfl rfl
    (by simp) (by simp)).2

/-- C4: pinning a ball zeroes its velocity immediately; the integrator
skips pinned balls entirely; ball-ball resolution never alters a pinned
partner; drag moves leave pinned balls untouched; unpinning changes only
the flag, so velocity stays zero until integration resumes; and the whole
per-ball sub-step body — integration, ball-ball pass and ball-wall pass —
leaves a pinned ball, the other balls, the gap set and the collision
counter untouched via the single outer pinned skip. -/
theorem pinned_body_invariants :
    (∀ b : Ball, b.isPinned = false →
        (togglePinBall b).isPinned = true ∧ (togglePinBall b).vel = ⟨0, 0⟩)
    ∧ (∀ (g : ℝ) (b : Ball), b.isPinned = true → integrateBall g b = b)
    ∧ (∀ (e : ℝ) (ball other : Ball), other.isPinned = true →
        (resolvePair e ball other).other = other)
    ∧ (∀ (m : Vector2) (k : DragKind) (b : Ball), b.isPinned = true →
        applyDrag m k b = b)
    ∧ (∀ b : Ball, b.isPinned = true →
        (togglePinBall b).isPinned = false ∧ (togglePinBall b).vel = b.vel
          ∧ (togglePinBall b).pos = b.pos)
    ∧ (∀ (isCircle enable record destructible : Bool) (gravity e rs : ℝ)
        (gapCount sides layers : ℕ) (center : Vector2)
        (maxRadius spacing rot : ℝ) (step : ℕ) (others : List Ball)
        (gaps : Finset String) (b : Ball), b.isPinned = true →
        processBallSubStep isCircle enable record destructible gravity e rs
          gapCount sides layers center maxRadius spacing rot step others gaps b
          = (b, others, gaps, 0)) := by
  refine ⟨?_, ?_, ?_, ?_, ?_, ?_⟩
  · intro b h
    simp [togglePinBall, h]
  · intro g b h
    simp [integrateBall, h]
  · intro e ball other h
    unfold resolvePair
    simp only [h]
    split_ifs <;> rfl
  · intro m k b h
    simp [applyDrag, h]
  · intro b h
    simp [togglePinBall, h]
  · intro isCircle enable record destructible gravity e rs gapCount sides layers
      center maxRadius spacing rot step others gaps b h
    simp [processBallSubStep, h]

theorem pinned_body_invariants_witness :
    ((togglePinBall (mkBall ⟨0, 0⟩ ⟨2, 3⟩ 1 false)).isPinned = true
      ∧ (togglePinBall (mkBall ⟨0, 0⟩ ⟨2, 3⟩ 1 false)).vel = ⟨0, 0⟩)
    ∧ integrateBall 0.05 (mkBall ⟨0, 0⟩ ⟨0, 0⟩ 1 true) = mkBall ⟨0, 0⟩ ⟨0, 0⟩ 1 true
    ∧ (resolvePair 0.95 (mkBall ⟨0, 0⟩ ⟨1, 0⟩ 1 false) (mkBall ⟨1, 0⟩ ⟨0, 0⟩ 1 true)).other
        = mkBall ⟨1, 0⟩ ⟨0, 0⟩ 1 true
    ∧ applyDrag ⟨5, 5⟩ DragKind.velocityDrag (mkBall ⟨0, 0⟩ ⟨0, 0⟩ 1 true)
        = mkBall ⟨0, 0⟩ ⟨0, 0⟩ 1 true
    ∧ (togglePinBall (mkBall ⟨0, 0⟩ ⟨0, 0⟩ 1 true)).isPinned = false
    ∧ processBallSubStep false false false false 0.05 0.95 0.005 0 6 1 ⟨0, 0⟩
        100 60 0 0 [] ∅ (mkBall ⟨0, 0⟩ ⟨0, 0⟩ 1 true)
        = (mkBall ⟨0, 0⟩ ⟨0, 0⟩ 1 true, [], ∅, 0) :=
  ⟨pinned_body_invariants.1 _ rfl,
   pinned_body_invariants.2.1 0.05 _ rfl,
   pinned_body_invariants.2.2.1 0.95 _ _ rfl,
   pinned_body_invariants.2.2.2.1 _ _ _ rfl,
   (pinned_body_invariants.2.2.2.2.1 _ rfl).1,
   pinned_body_invariants.2.2.2.2.2 false false false false 0.05 0.95 0.005 0 6 1
     ⟨0, 0⟩ 100 60 0 0 [] ∅ _ rfl⟩

/-- C2: after the integration phase of a sub-step, an unpinned ball's speed
never exceeds `radius * 0.8 * SUB_STEPS`, so its per-sub-step displacement
`velocity / SUB_STEPS` never exceeds 80 percent of its radius. -/
theorem post_integration_speed_clamped (g : ℝ) (b : Ball)
    (hp : b.isPinned = false) (hr : 0 ≤ b.radius) :
    mag (integrateBall g b).vel ≤ b.radius * 0.8 * (SUB_STEPS : ℝ)
    ∧ mag (mult (integrateBall g b).vel (1 / (SUB_STEPS : ℝ))) ≤ b.radius * 0.8 := by
  have hmf : 0 ≤ b.radius * 0.8 * (SUB_STEPS : ℝ) := by
    have : (0 : ℝ) ≤ (SUB_STEPS : ℝ) := by positivity
    nlinarith
  have key : mag (integrateBall g b).vel ≤ b.radius * 0.8 * (SUB_STEPS : ℝ) := by
    simp only [integrateBall, hp, Bool.false_eq_true, if_false]
    split_ifs with h
    · rw [mag_mult]
      have hpos : 0 < mag (mult ⟨b.vel.x, b.vel.y + g / (SUB_STEPS : ℝ)⟩ DAMP) :=
        lt_of_le_of_lt hmf h
      rw [abs_of_nonneg (div_nonneg hmf hpos.le), div_mul_cancel₀ _ hpos.ne']
    · exact le_of_not_lt h
  refine ⟨key, ?_⟩
  rw [mag_mult]
  have h10 : |1 / (SUB_STEPS : ℝ)| = 1 / (SUB_STEPS : ℝ) := by
    rw [abs_of_nonneg]
    positivity
  rw [h10]
  have hss : (0 : ℝ) < (SUB_STEPS : ℝ) := by
    simp [SUB_STEPS]
  rw [div_mul_eq_mul_div, one_mul, div_le_iff₀ hss]
  calc mag (integrateBall g b).vel ≤ b.radius * 0.8 * (SUB_STEPS : ℝ) := key
    _ = b.radius * 0.8 * (SUB_STEPS : ℝ) := rfl

theorem post_integration_speed_clamped_witness :
    mag (integrateBall 0 (mkBall ⟨0, 0⟩ ⟨0, 0⟩ 1 false)).vel
      ≤ (mkBall ⟨0, 0⟩ ⟨0, 0⟩ 1 false).radius * 0.8 * (SUB_STEPS : ℝ) :=
  (post_integration_speed_clamped 0 (mkBall ⟨0, 0⟩ ⟨0, 0⟩ 1 false) rfl
    (by norm_num [mkBall])).1

theorem distToSegment_of_ne (p a b : Vector2) (h : dot (sub b a) (sub b a) ≠ 0) :
    distToSegment p a b =
      (let t := max 0 (min 1 (dot (sub p a) (sub b a) / dot (sub b a) (sub b a)))
       let closest := add a (mult (sub b a) t)
       let n0 := normalize (sub p closest)
       ⟨dist p closest, closest,
        if n0.x = 0 ∧ n0.y = 0 then normalize ⟨-(sub b a).y, (sub b a).x⟩ else n0⟩) := by
  unfold distToSegment
  rw [if_neg h]

/-- C10: distToSegment is total and never divides by zero: for a
zero-length segment it returns the distance to the endpoint, that endpoint
as closest point, and the fixed normal `(0, -1)`; otherwise the closest
point is `a + t * (b - a)` for a projection parameter clamped to `[0, 1]`,
the distance is nonnegative, and the returned normal is never the zero
vector. -/
theorem distToSegment_total (p a b : Vector2) :
    (a = b → distToSegment p a b = ⟨dist p a, a, ⟨0, -1⟩⟩)
    ∧ (a ≠ b →
        (∃ t : ℝ, 0 ≤ t ∧ t ≤ 1
          ∧ (distToSegment p a b).closest = add a (mult (sub b a) t))
        ∧ 0 ≤ (distToSegment p a b).d
        ∧ (distToSegment p a b).normal ≠ (⟨0, 0⟩ : Vector2)) := by
  constructor
  · rintro rfl
    unfold distToSegment
    rw [if_pos]
    show dot (sub a a) (sub a a) = 0
    simp [sub, dot]
  · intro hne
    have habne : sub b a ≠ (⟨0, 0⟩ : Vector2) := by
      intro h
      apply hne
      have hx : b.x - a.x = 0 := congrArg Vector2.x h
      have hy : b.y - a.y = 0 := congrArg Vector2.y h
      ext
      · linarith
      · linarith
    have habLen : dot (sub b a) (sub b a) ≠ 0 := fun h =>
      habne ((dot_self_eq_zero_iff _).mp h)
    rw [distToSegment_of_ne p a b habLen]
    simp only []
    refine ⟨⟨max 0 (min 1 (dot (sub p a) (sub b a) / dot (sub b a) (sub b a))),
      le_max_left _ _, ?_, rfl⟩, ?_, ?_⟩
    · rcases le_or_lt (min 1 (dot (sub p a) (sub b a) / dot (sub b a) (sub b a))) 0 with h | h
      · rw [max_eq_left h]
        norm_num
      · rw [max_eq_right h.le]
        exact min_le_left _ _
    · exact Real.sqrt_nonneg _
    · split_ifs with h0
      · apply normalize_ne_zero
        intro hcon
        apply habne
        have hx : -(sub b a).y = 0 := congrArg Vector2.x hcon
        have hy : (sub b a).x = 0 := congrArg Vector2.y hcon
        ext
        · exact hy
        · show (sub b a).y = 0
          linarith
      · intro hcon
        apply h0
        rw [hcon]
        exact ⟨rfl, rfl⟩

theorem distToSegment_total_witness :
    ((⟨1, 1⟩ : Vector2) ≠ ⟨1, 1⟩ → False)
    ∧ distToSegment ⟨3, 4⟩ ⟨1, 1⟩ ⟨1, 1⟩ = ⟨dist ⟨3, 4⟩ ⟨1, 1⟩, ⟨1, 1⟩, ⟨0, -1⟩⟩
    ∧ ((⟨0, 0⟩ : Vector2) = (⟨2, 0⟩ : Vector2) → False)
    ∧ ((∃ t : ℝ, 0 ≤ t ∧ t ≤ 1
          ∧ (distToSegment ⟨1, 1⟩ ⟨0, 0⟩ ⟨2, 0⟩).closest = add ⟨0, 0⟩ (mult (sub ⟨2, 0⟩ ⟨0, 0⟩) t))
        ∧ 0 ≤ (distToSegment ⟨1, 1⟩ ⟨0, 0⟩ ⟨2, 0⟩).d
        ∧ (distToSegment ⟨1, 1⟩ ⟨0, 0⟩ ⟨2, 0⟩).normal ≠ (⟨0, 0⟩ : Vector2)) := by
  have hne : (⟨0, 0⟩ : Vector2) ≠ (⟨2, 0⟩ : Vector2) := by
    intro h
    have := congrArg Vector2.x h
    norm_num at this
  exact ⟨fun h => h rfl, (distToSegment_total ⟨3, 4⟩ ⟨1, 1⟩ ⟨1, 1⟩).1 rfl,
    fun h => hne h, (distToSegment_total ⟨1, 1⟩ ⟨0, 0⟩ ⟨2, 0⟩).2 hne⟩

/-- C1 counterexample: a resolved dynamic collision between two unpinned
balls (approaching, overlapping) does increment the collision counter, so
body-body dynamic collisions are counted, contrary to the claim. -/
theorem dynamic_collision_counted_cex :
    (mkBall ⟨1, 0⟩ ⟨-1, 0⟩ 1 false).isPinned = false
    ∧ (resolvePair 0.95 (mkBall ⟨0, 0⟩ ⟨1, 0⟩ 1 false)
        (mkBall ⟨1, 0⟩ ⟨-1, 0⟩ 1 false)).countDelta = 1 := by
  refine ⟨rfl, ?_⟩
  norm_num [resolvePair, mkBall, distSq, sub, mult, dot, Real.sqrt_one]

/-- C1 (amended): both kinds of resolved collision increment the counter by
exactly one per resolution: a ball hitting a pinned ball with negative
approach velocity, and a dynamic ball-ball pair with negative separating
velocity. -/
theorem collision_count_per_pair (e : ℝ) (ball other : Ball)
    (hov : distSq ball.pos other.pos
      < (ball.radius + other.radius) * (ball.radius + other.radius)) :
    (other.isPinned = true →
      dot ball.vel (mult (sub ball.pos other.pos)
        (1 / Real.sqrt (distSq ball.pos other.pos))) < 0 →
      (resolvePair e ball other).countDelta = 1)
    ∧ (other.isPinned = false →
      dot (sub ball.vel other.vel) (mult (sub ball.pos other.pos)
        (1 / Real.sqrt (distSq ball.pos other.pos))) < 0 →
      (resolvePair e ball other).countDelta = 1) := by
  constructor
  · intro hpin happ
    simp only [resolvePair, hpin]
    rw [if_pos hov]
    simp only [if_true]
    rw [if_pos happ]
  · intro hpin happ
    simp only [resolvePair, hpin]
    rw [if_pos hov]
    simp only [Bool.false_eq_true, if_false]
    rw [if_pos happ]

theorem collision_count_per_pair_witness :
    (resolvePair 1 (mkBall ⟨0, 0⟩ ⟨1, 0⟩ 1 false) (mkBall ⟨1, 0⟩ ⟨0, 0⟩ 1 true)).countDelta = 1
    ∧ (resolvePair 1 (mkBall ⟨0, 0⟩ ⟨1, 0⟩ 1 false)
        (mkBall ⟨1, 0⟩ ⟨-1, 0⟩ 1 false)).countDelta = 1 := by
  constructor
  · exact (collision_count_per_pair 1 _ _ (by norm_num [mkBall, distSq])).1 rfl
      (by norm_num [mkBall, dot, sub, mult, distSq, Real.sqrt_one])
  · exact (collision_count_per_pair 1 _ _ (by norm_num [mkBall, distSq])).2 rfl
      (by norm_num [mkBall, dot, sub, mult, distSq, Real.sqrt_one])

/-- C9 counterexample: with SUB_STEPS = 10, the ball-ball pass is also
gated on even sub-steps, so at sub-step 1 it does not run even though a
pinned ball exists. -/
theorem pinned_pass_parity_cex :
    (∃ b ∈ [mkBall ⟨0, 0⟩ ⟨0, 0⟩ 1 true], b.isPinned = true)
    ∧ ¬ pairLoopRuns false [mkBall ⟨0, 0⟩ ⟨0, 0⟩ 1 true] 1 := by
  constructor
  · exact ⟨_, List.mem_singleton_self _, rfl⟩
  · rintro ⟨-, h2 | h2⟩
    · norm_num [SUB_STEPS] at h2
    · norm_num at h2

/-- C9 (amended): whenever a pinned ball exists, the ball-ball pass runs on
every even-indexed sub-step even with the global flag off; with the flag
off only pinned partners are considered; and a pinned partner is resolved
with full push-out plus reflection, leaving the pinned ball unchanged. -/
theorem pinned_obstacle_pass (enable : Bool) (balls : List Ball) (step : ℕ)
    (hpin : ∃ b ∈ balls, b.isPinned = true) (hstep : step % 2 = 0) :
    pairLoopRuns enable balls step
    ∧ (∀ o : Ball, partnerConsidered false o ↔ o.isPinned = true)
    ∧ (∀ (e : ℝ) (ball other : Ball),
        distSq ball.pos other.pos
          < (ball.radius + other.radius) * (ball.radius + other.radius) →
        other.isPinned = true →
        dot ball.vel (mult (sub ball.pos other.pos)
          (1 / Real.sqrt (distSq ball.pos other.pos))) < 0 →
        (resolvePair e ball other).ball.pos
          = add ball.pos
              (mult (mult (sub ball.pos other.pos)
                  (1 / Real.sqrt (distSq ball.pos other.pos)))
                ((ball.radius + other.radius) - Real.sqrt (distSq ball.pos other.pos)))
        ∧ (resolvePair e ball other).ball.vel
          = mult (sub ball.vel
              (mult (mult (sub ball.pos other.pos)
                  (1 / Real.sqrt (distSq ball.pos other.pos)))
                (2 * dot ball.vel (mult (sub ball.pos other.pos)
                  (1 / Real.sqrt (distSq ball.pos other.pos)))))) e
        ∧ (resolvePair e ball other).other = other) := by
  refine ⟨⟨Or.inr hpin, Or.inr hstep⟩, ?_, ?_⟩
  · intro o
    unfold partnerConsidered
    cases h : o.isPinned <;> simp [h]
  · intro e ball other hov hpin2 happ
    simp only [resolvePair, hpin2]
    rw [if_pos hov]
    simp only [if_true]
    rw [if_pos happ]
    exact ⟨rfl, rfl, rfl⟩

theorem pinned_obstacle_pass_witness :
    pairLoopRuns false [mkBall ⟨1, 0⟩ ⟨0, 0⟩ 1 true] 0
    ∧ (resolvePair 1 (mkBall ⟨0, 0⟩ ⟨1, 0⟩ 1 false) (mkBall ⟨1, 0⟩ ⟨0, 0⟩ 1 true)).other
        = mkBall ⟨1, 0⟩ ⟨0, 0⟩ 1 true := by
  have h := pinned_obstacle_pass false [mkBall ⟨1, 0⟩ ⟨0, 0⟩ 1 true] 0
    ⟨_, List.mem_singleton_self _, rfl⟩ rfl
  exact ⟨h.1, (h.2.2 1 (mkBall ⟨0, 0⟩ ⟨1, 0⟩ 1 false) (mkBall ⟨1, 0⟩ ⟨0, 0⟩ 1 true)
    (by norm_num [mkBall, distSq]) rfl
    (by norm_num [mkBall, dot, sub, mult, distSq, Real.sqrt_one])).2.2⟩

/-- C7: a resolved ball-wall collision, circular or polygonal, increments
the collision counter exactly when ball-ball collisions are disabled or
the record-wall-collisions flag is set. -/
theorem wall_hit_count_policy (enable record destructible : Bool) (e rs : ℝ)
    (gapCount sides : ℕ) (center : Vector2) (layer i : ℕ) (layerR rot : ℝ)
    (p1 p2 : Vector2) (gaps : Finset String) (b : Ball) :
    ((resolveCircleWall enable record destructible e rs gapCount sides center
        layer layerR rot gaps b).countDelta = 1
      ↔ circleWallHit gapCount sides center layer layerR rot gaps b
          ∧ (enable = false ∨ record = true))
    ∧ ((resolvePolySide enable record destructible e rs gapCount sides layer i
        p1 p2 gaps b).countDelta = 1
      ↔ polySideHit gapCount sides layer i p1 p2 gaps b
          ∧ (enable = false ∨ record = true)) := by
  constructor
  · simp only [resolveCircleWall, circleWallHit]
    split_ifs <;> simp_all
  · simp only [resolvePolySide, polySideHit]
    split_ifs <;> simp_all

theorem hoverScan_gate_false {α : Type} (gate : Prop) (skip p : α → Prop)
    (f : α → String) (hg : ¬ gate) (l : List α) (acc : Option String) :
    l.foldl (hoverScanStep gate skip p f) acc = acc := by
  induction l generalizing acc with
  | nil => rfl
  | cons a l ih =>
      rw [List.foldl_cons, ih]
      unfold hoverScanStep
      split_ifs with h1 h2
      · rfl
      · exact absurd h2.1 hg
      · rfl

theorem hoverScan_some {α : Type} (gate : Prop) (skip p : α → Prop)
    (f : α → String) (w : String) (l : List α) :
    l.foldl (hoverScanStep gate skip p f) (some w) = some w := by
  induction l with
  | nil => rfl
  | cons a l ih =>
      rw [List.foldl_cons]
      have hstep : hoverScanStep gate skip p f (some w) a = some w := by
        unfold hoverScanStep
        split_ifs with h1 h2
        · rfl
        · exact absurd h2.2.1 (by simp)
        · rfl
      rw [hstep, ih]

theorem hoverScan_first {α : Type} (gate : Prop) (skip p : α → Prop)
    (f : α → String) (hg : gate) (l : List α) :
    l.foldl (hoverScanStep gate skip p f) none = firstEligible skip p f l := by
  induction l with
  | nil => rfl
  | cons a l ih =>
      rw [List.foldl_cons]
      by_cases h1 : skip a
      · rw [show hoverScanStep gate skip p f none a = none from by
          unfold hoverScanStep; rw [if_pos h1], ih]
        simp only [firstEligible]
        rw [if_pos h1]
      · by_cases h2 : p a
        · rw [show hoverScanStep gate skip p f none a = some (f a) from by
            unfold hoverScanStep; rw [if_neg h1, if_pos ⟨hg, rfl, h2⟩], hoverScan_some]
          simp only [firstEligible]
          rw [if_neg h1, if_pos h2]
        · rw [show hoverScanStep gate skip p f none a = none from by
            unfold hoverScanStep
            rw [if_neg h1, if_neg (by rintro ⟨-, -, hp⟩; exact h2 hp)], ih]
          simp only [firstEligible]
          rw [if_neg h1, if_neg h2]

/-- C8 counterexample: in circular mode with two layers, the pointer lies
within the 20-pixel tolerance of both rings and strictly nearer to the
inner ring (layer 1), yet the scan hovers the outer ring (layer 0), the
first in iteration order — not the nearest. -/
theorem hover_not_nearest_cex :
    circleHover true true ⟨100, 0⟩ ⟨0, 0⟩ 115 10 2 = some (wallIdStr 0 0)
    ∧ |mag (sub ⟨100, 0⟩ ⟨0, 0⟩) - layerRadius 115 10 1|
        < |mag (sub ⟨100, 0⟩ ⟨0, 0⟩) - layerRadius 115 10 0|
    ∧ |mag (sub ⟨100, 0⟩ ⟨0, 0⟩) - layerRadius 115 10 1| < 20 := by
  have hmag : mag (sub (⟨100, 0⟩ : Vector2) ⟨0, 0⟩) = 100 := by
    unfold mag sub
    norm_num
    rw [show (10000 : ℝ) = 100 ^ 2 by norm_num, Real.sqrt_sq (by norm_num)]
  have h0 : |mag (sub (⟨100, 0⟩ : Vector2) ⟨0, 0⟩) - layerRadius 115 10 0| = 15 := by
    rw [hmag]
    unfold layerRadius
    rw [show (100 : ℝ) - (115 - (0 : ℕ) * 10) = -15 by norm_num, abs_of_neg (by norm_num)]
    norm_num
  have h1 : |mag (sub (⟨100, 0⟩ : Vector2) ⟨0, 0⟩) - layerRadius 115 10 1| = 5 := by
    rw [hmag]
    unfold layerRadius
    rw [show (100 : ℝ) - (115 - (1 : ℕ) * 10) = -5 by norm_num, abs_of_neg (by norm_num)]
    norm_num
  refine ⟨?_, ?_, ?_⟩
  · unfold circleHover
    rw [hoverScan_first _ _ _ _ ⟨rfl, rfl⟩]
    rw [show List.range 2 = [0, 1] from by decide]
    simp only [firstEligible]
    rw [if_neg (by unfold layerRadius; push_neg; norm_num), if_pos (by rw [h0]; norm_num)]
  · rw [h0, h1]
    norm_num
  · rw [h1]
    norm_num

/-- C8 (amended): the hovered wall is computed only while god mode and
pause both hold (otherwise no wall is hovered), at most one wall is
hovered, and the hovered wall is the first wall in layer-then-side
iteration order lying within the fixed 20-pixel tolerance — first-wins in
scan order, not nearest-wins. -/
theorem hover_first_wins (godMode paused : Bool) (mouse center : Vector2)
    (maxRadius spacing rot : ℝ) (layers sides gapCount : ℕ) :
    (godMode = false ∨ paused = false →
      circleHover godMode paused mouse center maxRadius spacing layers = none
      ∧ polyHover godMode paused mouse center maxRadius spacing rot layers sides gapCount = none)
    ∧ (godMode = true → paused = true →
      circleHover godMode paused mouse center maxRadius spacing layers
        = firstEligible (fun l => layerRadius maxRadius spacing l ≤ 0)
            (fun l => |mag (sub mouse center) - layerRadius maxRadius spacing l| < 20)
            (fun l => wallIdStr l 0) (List.range layers)
      ∧ polyHover godMode paused mouse center maxRadius spacing rot layers sides gapCount
        = firstEligible
            (fun w => layerRadius maxRadius spacing w.1 ≤ 0
              ∨ (sides : ℤ) - (gapCount : ℤ) ≤ (w.2 : ℤ))
            (fun w =>
              (distToSegment mouse
                (polyVertex center (layerRadius maxRadius spacing w.1) rot sides w.2)
                (polyVertex center (layerRadius maxRadius spacing w.1) rot sides
                  ((w.2 + 1) % sides))).d < 20)
            (fun w => wallIdStr w.1 w.2)
            ((List.range layers).flatMap fun l => (List.range sides).map fun i => (l, i))) := by
  constructor
  · intro hoff
    have hg : ¬(godMode = true ∧ paused = true) := by
      rintro ⟨h1, h2⟩
      rcases hoff with h | h
      · rw [h1] at h
        cases h
      · rw [h2] at h
        cases h
    exact ⟨hoverScan_gate_false _ _ _ _ hg _ _, hoverScan_gate_false _ _ _ _ hg _ _⟩
  · intro h1 h2
    subst h1 h2
    exact ⟨hoverScan_first _ _ _ _ ⟨rfl, rfl⟩ _, hoverScan_first _ _ _ _ ⟨rfl, rfl⟩ _⟩

theorem hover_first_wins_witness :
    circleHover false true ⟨0, 0⟩ ⟨0, 0⟩ 100 10 3 = none
    ∧ circleHover true true ⟨0, 0⟩ ⟨0, 0⟩ 100 10 3
        = firstEligible (fun l => layerRadius 100 10 l ≤ 0)
            (fun l => |mag (sub ⟨0, 0⟩ ⟨0, 0⟩) - layerRadius 100 10 l| < 20)
            (fun l => wallIdStr l 0) (List.range 3) :=
  ⟨((hover_first_wins false true ⟨0, 0⟩ ⟨0, 0⟩ 100 10 0 3 5 0).1 (Or.inl rfl)).1,
   ((hover_first_wins true true ⟨0, 0⟩ ⟨0, 0⟩ 100 10 0 3 5 0).2 rfl rfl).1⟩

/-- C6 counterexample: two overlapping unpinned balls with opposite equal
velocities along the line of centers: after resolution the first ball's
velocity is `0.99` times the other's initial velocity, not the other's
initial velocity itself — velocities are not exchanged exactly. -/
theorem equal_mass_swap_cex :
    distSq (⟨0, 0⟩ : Vector2) ⟨1, 0⟩ < ((1 : ℝ) + 1) * ((1 : ℝ) + 1)
    ∧ (resolvePair 0.95 (mkBall ⟨0, 0⟩ ⟨1, 0⟩ 1 false)
        (mkBall ⟨1, 0⟩ ⟨-1, 0⟩ 1 false)).ball.vel ≠ (mkBall ⟨1, 0⟩ ⟨-1, 0⟩ 1 false).vel := by
  constructor
  · norm_num [distSq]
  · norm_num [resolvePair, mkBall, distSq, sub, mult, dot, add, Real.sqrt_one,
      Vector2.mk.injEq]

/-- C6 (amended): for two overlapping unpinned balls holding opposite
velocities of equal magnitude along the line connecting their centers, one
resolution pass exchanges the velocities up to the universal 0.99 damping
factor (each ball ends with 0.99 times the other's initial velocity), and
the resulting positions are exactly in contact, so the pair no longer
counts as overlapping. -/
theorem head_on_collision_resolution (e s : ℝ) (ball other : Ball)
    (hov : distSq ball.pos other.pos
      < (ball.radius + other.radius) * (ball.radius + other.radius))
    (hdpos : 0 < distSq ball.pos other.pos) (hs : 0 < s)
    (hopin : other.isPinned = false)
    (hv1 : ball.vel = mult (mult (sub ball.pos other.pos)
      (1 / Real.sqrt (distSq ball.pos other.pos))) (-s))
    (hv2 : other.vel = mult (mult (sub ball.pos other.pos)
      (1 / Real.sqrt (distSq ball.pos other.pos))) s) :
    (resolvePair e ball other).ball.vel = mult other.vel 0.99
    ∧ (resolvePair e ball other).other.vel = mult ball.vel 0.99
    ∧ ¬(distSq (resolvePair e ball other).ball.pos (resolvePair e ball other).other.pos
        < (ball.radius + other.radius) * (ball.radius + other.radius)) := by
  have hd0 : 0 ≤ distSq ball.pos other.pos := le_of_lt hdpos
  have hd2 : Real.sqrt (distSq ball.pos other.pos) * Real.sqrt (distSq ball.pos other.pos)
      = distSq ball.pos other.pos := Real.mul_self_sqrt hd0
  have hdp : 0 < Real.sqrt (distSq ball.pos other.pos) := Real.sqrt_pos.mpr hdpos
  have hdne : Real.sqrt (distSq ball.pos other.pos) ≠ 0 := ne_of_gt hdp
  have hq : Real.sqrt (distSq ball.pos other.pos) * Real.sqrt (distSq ball.pos other.pos)
      = (ball.pos.x - other.pos.x) * (ball.pos.x - other.pos.x)
        + (ball.pos.y - other.pos.y) * (ball.pos.y - other.pos.y) := hd2
  have hu : (1 / Real.sqrt (distSq ball.pos other.pos))
        * (1 / Real.sqrt (distSq ball.pos other.pos))
        * ((ball.pos.x - other.pos.x) * (ball.pos.x - other.pos.x)
          + (ball.pos.y - other.pos.y) * (ball.pos.y - other.pos.y)) = 1 := by
    rw [← hq]
    field_simp
  have hsep : dot (sub ball.vel other.vel) (mult (sub ball.pos other.pos)
      (1 / Real.sqrt (distSq ball.pos other.pos))) = -(2 * s) := by
    rw [hv1, hv2]
    show ((ball.pos.x - other.pos.x) * (1 / Real.sqrt (distSq ball.pos other.pos)) * (-s)
        - (ball.pos.x - other.pos.x) * (1 / Real.sqrt (distSq ball.pos other.pos)) * s)
        * ((ball.pos.x - other.pos.x) * (1 / Real.sqrt (distSq ball.pos other.pos)))
      + ((ball.pos.y - other.pos.y) * (1 / Real.sqrt (distSq ball.pos other.pos)) * (-s)
        - (ball.pos.y - other.pos.y) * (1 / Real.sqrt (distSq ball.pos other.pos)) * s)
        * ((ball.pos.y - other.pos.y) * (1 / Real.sqrt (distSq ball.pos other.pos)))
      = -(2 * s)
    linear_combination (-(2 : ℝ) * s) * hu
  have hres : resolvePair e ball other =
      ⟨{ ball with
          pos := add ball.pos (mult (mult (sub ball.pos other.pos)
            (1 / Real.sqrt (distSq ball.pos other.pos)))
            (((ball.radius + other.radius) - Real.sqrt (distSq ball.pos other.pos)) * 0.5)),
          vel := mult (sub ball.vel (mult (mult (sub ball.pos other.pos)
            (1 / Real.sqrt (distSq ball.pos other.pos)))
            (dot (sub ball.vel other.vel) (mult (sub ball.pos other.pos)
              (1 / Real.sqrt (distSq ball.pos other.pos)))))) 0.99 },
       { other with
          pos := sub other.pos (mult (mult (sub ball.pos other.pos)
            (1 / Real.sqrt (distSq ball.pos other.pos)))
            (((ball.radius + other.radius) - Real.sqrt (distSq ball.pos other.pos)) * 0.5)),
          vel := mult (add other.vel (mult (mult (sub ball.pos other.pos)
            (1 / Real.sqrt (distSq ball.pos other.pos)))
            (dot (sub ball.vel other.vel) (mult (sub ball.pos other.pos)
              (1 / Real.sqrt (distSq ball.pos other.pos)))))) 0.99 },
       1⟩ := by
    simp only [resolvePair, hopin, Bool.false_eq_true, if_false]
    rw [if_pos hov, if_pos (by rw [hsep]; linarith)]
  rw [hres]
  refine ⟨?_, ?_, ?_⟩
  · show mult (sub ball.vel (mult (mult (sub ball.pos other.pos)
        (1 / Real.sqrt (distSq ball.pos other.pos)))
        (dot (sub ball.vel other.vel) (mult (sub ball.pos other.pos)
          (1 / Real.sqrt (distSq ball.pos other.pos)))))) 0.99 = mult other.vel 0.99
    rw [hsep, hv1, hv2]
    ext <;> simp only [mult, sub] <;> ring
  · show mult (add other.vel (mult (mult (sub ball.pos other.pos)
        (1 / Real.sqrt (distSq ball.pos other.pos)))
        (dot (sub ball.vel other.vel) (mult (sub ball.pos other.pos)
          (1 / Real.sqrt (distSq ball.pos other.pos)))))) 0.99 = mult ball.vel 0.99
    rw [hsep, hv1, hv2]
    ext <;> simp only [mult, sub, add] <;> ring
  · have hx : (ball.pos.x + (ball.pos.x - other.pos.x)
          * (1 / Real.sqrt (distSq ball.pos other.pos))
          * (((ball.radius + other.radius) - Real.sqrt (distSq ball.pos other.pos)) * 0.5))
        - (other.pos.x - (ball.pos.x - other.pos.x)
          * (1 / Real.sqrt (distSq ball.pos other.pos))
          * (((ball.radius + other.radius) - Real.sqrt (distSq ball.pos other.pos)) * 0.5))
        = (ball.pos.x - other.pos.x) * (1 / Real.sqrt (distSq ball.pos other.pos))
          * (ball.radius + other.radius) := by
      field_simp
      ring
    have hy : (ball.pos.y + (ball.pos.y - other.pos.y)
          * (1 / Real.sqrt (distSq ball.pos other.pos))
          * (((ball.radius + other.radius) - Real.sqrt (distSq ball.pos other.pos)) * 0.5))
        - (other.pos.y - (ball.pos.y - other.pos.y)
          * (1 / Real.sqrt (distSq ball.pos other.pos))
          * (((ball.radius + other.radius) - Real.sqrt (distSq ball.pos other.pos)) * 0.5))
        = (ball.pos.y - other.pos.y) * (1 / Real.sqrt (distSq ball.pos other.pos))
          * (ball.radius + other.radius) := by
      field_simp
      ring
    have heq : distSq
        (add ball.pos (mult (mult (sub ball.pos other.pos)
          (1 / Real.sqrt (distSq ball.pos other.pos)))
          (((ball.radius + other.radius) - Real.sqrt (distSq ball.pos other.pos)) * 0.5)))
        (sub other.pos (mult (mult (sub ball.pos other.pos)
          (1 / Real.sqrt (distSq ball.pos other.pos)))
          (((ball.radius + other.radius) - Real.sqrt (distSq ball.pos other.pos)) * 0.5)))
        = (ball.radius + other.radius) * (ball.radius + other.radius) := by
      show ((ball.pos.x + (ball.pos.x - other.pos.x)
            * (1 / Real.sqrt (distSq ball.pos other.pos))
            * (((ball.radius + other.radius) - Real.sqrt (distSq ball.pos other.pos)) * 0.5))
          - (other.pos.x - (ball.pos.x - other.pos.x)
            * (1 / Real.sqrt (distSq ball.pos other.pos))
            * (((ball.radius + other.radius) - Real.sqrt (distSq ball.pos other.pos)) * 0.5)))
          * ((ball.pos.x + (ball.pos.x - other.pos.x)
            * (1 / Real.sqrt (distSq ball.pos other.pos))
            * (((ball.radius + other.radius) - Real.sqrt (distSq ball.pos other.pos)) * 0.5))
          - (other.pos.x - (ball.pos.x - other.pos.x)
            * (1 / Real.sqrt (distSq ball.pos other.pos))
            * (((ball.radius + other.radius) - Real.sqrt (distSq ball.pos other.pos)) * 0.5)))
        + ((ball.pos.y + (ball.pos.y - other.pos.y)
            * (1 / Real.sqrt (distSq ball.pos other.pos))
            * (((ball.radius + other.radius) - Real.sqrt (distSq ball.pos other.pos)) * 0.5))
          - (other.pos.y - (ball.pos.y - other.pos.y)
            * (1 / Real.sqrt (distSq ball.pos other.pos))
            * (((ball.radius + other.radius) - Real.sqrt (distSq ball.pos other.pos)) * 0.5)))
          * ((ball.pos.y + (ball.pos.y - other.pos.y)
            * (1 / Real.sqrt (distSq ball.pos other.pos))
            * (((ball.radius + other.radius) - Real.sqrt (distSq ball.pos other.pos)) * 0.5))
          - (other.pos.y - (ball.pos.y - other.pos.y)
            * (1 / Real.sqrt (distSq ball.pos other.pos))
            * (((ball.radius + other.radius) - Real.sqrt (distSq ball.pos other.pos)) * 0.5)))
        = (ball.radius + other.radius) * (ball.radius + other.radius)
      rw [hx, hy]
      linear_combination ((ball.radius + other.radius) * (ball.radius + other.radius)) * hu
    show ¬(distSq
        (add ball.pos (mult (mult (sub ball.pos other.pos)
          (1 / Real.sqrt (distSq ball.pos other.pos)))
          (((ball.radius + other.radius) - Real.sqrt (distSq ball.pos other.pos)) * 0.5)))
        (sub other.pos (mult (mult (sub ball.pos other.pos)
          (1 / Real.sqrt (distSq ball.pos other.pos)))
          (((ball.radius + other.radius) - Real.sqrt (distSq ball.pos other.pos)) * 0.5)))
        < (ball.radius + other.radius) * (ball.radius + other.radius))
    rw [heq]
    exact lt_irrefl _

theorem head_on_collision_resolution_witness :
    (resolvePair 0.95 (mkBall ⟨0, 0⟩ ⟨1, 0⟩ 1 false)
        (mkBall ⟨1, 0⟩ ⟨-1, 0⟩ 1 false)).ball.vel
      = mult (mkBall ⟨1, 0⟩ ⟨-1, 0⟩ 1 false).vel 0.99 :=
  (head_on_collision_resolution 0.95 1
    (mkBall ⟨0, 0⟩ ⟨1, 0⟩ 1 false) (mkBall ⟨1, 0⟩ ⟨-1, 0⟩ 1 false)
    (by norm_num [mkBall, distSq])
    (by norm_num [mkBall, distSq])
    (by norm_num)
    rfl
    (by norm_num [mkBall, sub, mult, distSq, Real.sqrt_one, Vector2.mk.injEq])
    (by norm_num [mkBall, sub, mult, distSq, Real.sqrt_one, Vector2.mk.injEq])).1

end

end CosmicBounce
